import Mathlib

/-!
# MSM audio ION buffer registry (`dsp/msm_audio_ion.c`)

A shallow embedding of the allocation registry and of the mapping protocol of
the MSM audio ION driver, followed by theorems about it.

Conventions of the embedding:

* pointers are natural numbers, `0` is `NULL`; a `struct dma_buf *` is the
  buffer identity;
* the global `msm_audio_ion_data` is the explicit `State` that every function
  receives and returns; the calls the driver makes into the kernel are
  appended to `State.trace` in program order;
* what the kernel answers to those calls (`dma_buf_attach`, `dma_buf_kmap`,
  ...) is read from a `World`, one field per kernel function;
* `unsigned int` is reduced modulo `2 ^ 32`, `unsigned long` modulo `2 ^ 64`,
  `dma_addr_t` modulo `2 ^ World.dma_addr_bits`;
* the `int` loop counters of the page loops are natural numbers: they are
  exact while the page count is at most `INT_MAX`.
-/

set_option linter.unusedVariables false

namespace MsmAudioIon

/-! ## Constants -/

/-- Errno `ENOMEM`. -/
def ENOMEM : Int := 12

/-- Errno `EINVAL`. -/
def EINVAL : Int := 22

/-- Errno `EPROBE_DEFER`. -/
def EPROBE_DEFER : Int := 517

/-- Largest errno an error pointer can carry (`MAX_ERRNO`). -/
def MAX_ERRNO : Nat := 4095

/-- Largest value of a C `int`. -/
def INT_MAX : Nat := 2 ^ 31 - 1

/-- Modulus of `unsigned int`. -/
def UINT_MOD : Nat := 2 ^ 32

/-- Modulus of `unsigned long` (64-bit kernel). -/
def ULONG_MOD : Nat := 2 ^ 64

/-- Flag bit `MSM_AUDIO_ION_PROBED`, that is `1 << 0`. -/
def MSM_AUDIO_ION_PROBED : Nat := 1

/-! ## Error pointers -/

/-- An errno carried by an error pointer: `ERR_PTR(-val)` with `1 ≤ val ≤ MAX_ERRNO`. -/
structure Errno where
  val : Nat
  pos : 0 < val
  le : val ≤ 4095

/-- Result of a kernel call that returns either a valid pointer or an `ERR_PTR`. -/
inductive PtrResult (α : Type) where
  | ptr (p : α)
  | err_ptr (e : Errno)

/-- The macro `PTR_ERR` on an error pointer: the negative errno. -/
def PTR_ERR (e : Errno) : Int := -(e.val : Int)

/-- The macro `IS_ERR_OR_NULL` on a raw 64-bit pointer value. -/
def IS_ERR_OR_NULL (p : Nat) : Bool := p == 0 || decide (ULONG_MOD - MAX_ERRNO ≤ p)

/-! ## Data model -/

/-- One entry of a scatter-gather list (`struct scatterlist`). -/
structure Scatterlist where
  /-- Pointer `sg_page(sg)` in units of `struct page`, `0` when there is no page. -/
  page : Nat
  /-- Field `length`, an `unsigned int`. -/
  length : Nat
  /-- Field `dma_address`, a `dma_addr_t`. -/
  dma_address : Nat
deriving DecidableEq, Repr

/-- A scatter-gather table (`struct sg_table`): `sgl` is the first entry, `nents` is
`1 + rest.length`. -/
structure SgTable where
  sgl : Scatterlist
  rest : List Scatterlist
deriving DecidableEq, Repr

/-- The entries `for_each_sg(table->sgl, sg, table->nents, i)` visits, in order. -/
def SgTable.entries (t : SgTable) : List Scatterlist := t.sgl :: t.rest

/-- Allocation record (`struct msm_audio_alloc_data`). -/
structure msm_audio_alloc_data where
  len : Nat
  vaddr : Nat
  dma_buf : Nat
  attach : Nat
  table : SgTable
deriving DecidableEq, Repr

/-- Calls into the kernel, as they are recorded in `State.trace`. -/
inductive Event where
  | ion_alloc (bufsz : Nat)
  | dma_buf_get (fd : Int)
  | dma_buf_get_flags (dma_buf : Nat)
  | dma_buf_attach (dma_buf : Nat)
  | dma_buf_detach (dma_buf attach : Nat)
  | dma_buf_map_attachment (attach : Nat)
  | dma_buf_unmap_attachment (attach : Nat) (table : SgTable)
  | dma_buf_put (dma_buf : Nat)
  | dma_buf_begin_cpu_access (dma_buf : Nat)
  | dma_buf_end_cpu_access (dma_buf : Nat)
  | dma_buf_kmap (dma_buf page : Nat)
  | dma_buf_kunmap (dma_buf page vaddr : Nat)
  | remap_pfn_range (addr pfn len prot : Nat)
  | memset (addr len : Nat)
deriving DecidableEq, Repr

/-- The driver state (`struct msm_audio_ion_private`, the fields the buffer operations use)
together with the trace of kernel calls made so far. -/
structure State where
  /-- Field `device_status`, a `u8`. -/
  device_status : Nat
  /-- Field `smmu_sid_bits`, a `u64`. -/
  smmu_sid_bits : Nat
  /-- Field `alloc_list`, head first. -/
  alloc_list : List msm_audio_alloc_data
  trace : List Event
deriving DecidableEq, Repr

/-- Record one kernel call. -/
def State.emit (s : State) (e : Event) : State :=
  { s with trace := s.trace ++ [e] }

/-- Answers of the kernel to the calls the driver makes, and the constants of the headers
that are not part of this file. -/
structure World where
  PAGE_SIZE : Nat
  /-- Width of `dma_addr_t` in bits. -/
  dma_addr_bits : Nat
  MSM_AUDIO_ION_INV_CACHES : Int
  MSM_AUDIO_ION_CLEAN_CACHES : Int
  ION_FLAG_CACHED : Nat
  /-- Whether `kzalloc` of an allocation record succeeds. -/
  kzalloc_ok : Bool
  /-- Field `dma_buf->size`. -/
  dma_buf_size : Nat → Nat
  ion_alloc : Nat → PtrResult Nat
  dma_buf_get : Int → PtrResult Nat
  /-- Call `dma_buf_get_flags(dma_buf, &flags)`: from the buffer and the old value of
  `flags`, the return code and the new value of `flags`. -/
  dma_buf_get_flags : Nat → Nat → Int × Nat
  dma_buf_attach : Nat → PtrResult Nat
  dma_buf_map_attachment : Nat → PtrResult SgTable
  dma_buf_begin_cpu_access : Nat → Int
  dma_buf_end_cpu_access : Nat → Int
  /-- Call `dma_buf_kmap(dma_buf, page)`: the kernel address, `0` for `NULL`. -/
  dma_buf_kmap : Nat → Nat → Nat
  page_to_pfn : Nat → Nat
  pgprot_writecombine : Nat → Nat

/-! ## Allocation registry -/

/-- Function `msm_audio_ion_add_allocation`: `list_add_tail` under the list mutex. -/
def msm_audio_ion_add_allocation (s : State) (alloc_data : msm_audio_alloc_data) : State :=
  { s with alloc_list := s.alloc_list ++ [alloc_data] }

/-- The lookup every reader of the list performs: the first record, from the head, whose
`dma_buf` is the one asked for. -/
def find_alloc : List msm_audio_alloc_data → Nat → Option msm_audio_alloc_data
  | [], _ => none
  | r :: rs, dma_buf => if r.dma_buf = dma_buf then some r else find_alloc rs dma_buf

/-- The loop of `msm_audio_ion_map_kernel` that stores `addr` in the first matching record. -/
def set_vaddr : List msm_audio_alloc_data → Nat → Nat → List msm_audio_alloc_data
  | [], _, _ => []
  | r :: rs, dma_buf, addr =>
    if r.dma_buf = dma_buf then { r with vaddr := addr } :: rs
    else r :: set_vaddr rs dma_buf addr

/-- The `list_del` of `msm_audio_dma_buf_unmap`: the list without its first matching record. -/
def del_alloc : List msm_audio_alloc_data → Nat → List msm_audio_alloc_data
  | [], _ => []
  | r :: rs, dma_buf => if r.dma_buf = dma_buf then rs else r :: del_alloc rs dma_buf

/-! ## Mapping protocol -/

/-- Result of `msm_audio_dma_buf_map` and `msm_audio_ion_get_phys`: the return code, the
contents of `*addr` and `*len` after the call, and the state after the call. -/
structure MapOut where
  rc : Int
  addr : Nat
  len : Nat
  st : State
deriving DecidableEq, Repr

/-- The macro `MSM_AUDIO_ION_PHYS_ADDR`, that is `alloc_data->table->sgl->dma_address`. -/
def MSM_AUDIO_ION_PHYS_ADDR (table : SgTable) : Nat := table.sgl.dma_address

/-- Function `msm_audio_dma_buf_map`. The arguments `addr` and `len` are the contents of
the two output cells before the call. -/
def msm_audio_dma_buf_map (w : World) (dma_buf : Nat) (addr len : Nat) (s : State) : MapOut :=
  if w.kzalloc_ok = false then ⟨-ENOMEM, addr, len, s⟩
  else
    let len := w.dma_buf_size dma_buf
    let s := s.emit (.dma_buf_attach dma_buf)
    match w.dma_buf_attach dma_buf with
    | .err_ptr e => ⟨PTR_ERR e, addr, len, s⟩
    | .ptr attach =>
      let s := s.emit (.dma_buf_map_attachment attach)
      match w.dma_buf_map_attachment attach with
      | .err_ptr e => ⟨PTR_ERR e, addr, len, s.emit (.dma_buf_detach dma_buf attach)⟩
      | .ptr table =>
        let addr := MSM_AUDIO_ION_PHYS_ADDR table
        ⟨0, addr, len,
          msm_audio_ion_add_allocation s
            { len := len, vaddr := 0, dma_buf := dma_buf, attach := attach, table := table }⟩

/-- Function `msm_audio_dma_buf_unmap`: the return code and the state after the call. -/
def msm_audio_dma_buf_unmap (dma_buf : Nat) (s : State) : Int × State :=
  match find_alloc s.alloc_list dma_buf with
  | some alloc_data =>
    let s := s.emit (.dma_buf_unmap_attachment alloc_data.attach alloc_data.table)
    let s := s.emit (.dma_buf_detach alloc_data.dma_buf alloc_data.attach)
    let s := s.emit (.dma_buf_put alloc_data.dma_buf)
    (0, { s with alloc_list := del_alloc s.alloc_list dma_buf })
  | none => (-EINVAL, s)

/-- Function `msm_audio_ion_get_phys`. -/
def msm_audio_ion_get_phys (w : World) (dma_buf : Nat) (addr len : Nat) (s : State) : MapOut :=
  let r := msm_audio_dma_buf_map w dma_buf addr len s
  if r.rc ≠ 0 then r
  else { r with addr := (r.addr ||| r.st.smmu_sid_bits) % 2 ^ w.dma_addr_bits }

/-! ## Kernel access mapper -/

/-- The page count both kernel-mapping functions compute: `size / PAGE_SIZE` stored in an
`unsigned int`, plus one when `size % PAGE_SIZE` is not zero. -/
def page_count (w : World) (dma_buf : Nat) : Nat :=
  let pg_cnt := (w.dma_buf_size dma_buf / w.PAGE_SIZE) % UINT_MOD
  if w.dma_buf_size dma_buf % w.PAGE_SIZE ≠ 0 then (pg_cnt + 1) % UINT_MOD else pg_cnt

/-- The loop `for (i = 1; i < pg_cnt; i++)` of `msm_audio_ion_map_kernel`, with `n` pages
left to map from index `i` on: `some i` when `dma_buf_kmap` fails at index `i`. -/
def kmap_remaining (w : World) (dma_buf : Nat) : Nat → Nat → State → Option Nat × State
  | 0, _, s => (none, s)
  | n + 1, i, s =>
    let s := s.emit (.dma_buf_kmap dma_buf i)
    if w.dma_buf_kmap dma_buf i = 0 then (some i, s)
    else kmap_remaining w dma_buf n (i + 1) s

/-- The loop `for (; i > 0; i--) dma_buf_kunmap(dma_buf, i - 1, addr)` at label `err`. -/
def kunmap_down (dma_buf addr : Nat) : Nat → State → State
  | 0, s => s
  | i + 1, s => kunmap_down dma_buf addr i (s.emit (.dma_buf_kunmap dma_buf i addr))

/-- The loop `for (i = 0; i < pg_cnt; i++) dma_buf_kunmap(dma_buf, i, vaddr)`, with `n`
pages left from index `i` on. -/
def kunmap_up (dma_buf vaddr : Nat) : Nat → Nat → State → State
  | 0, _, s => s
  | n + 1, i, s => kunmap_up dma_buf vaddr n (i + 1) (s.emit (.dma_buf_kunmap dma_buf i vaddr))

/-- Function `msm_audio_ion_map_kernel`: the returned address (`0` for `NULL`) and the state
after the call. -/
def msm_audio_ion_map_kernel (w : World) (dma_buf : Nat) (s : State) : Nat × State :=
  let rc := w.dma_buf_begin_cpu_access dma_buf
  let s := s.emit (.dma_buf_begin_cpu_access dma_buf)
  if rc ≠ 0 then (0, s)
  else
    let pg_cnt := page_count w dma_buf
    if pg_cnt = 0 then (0, s)
    else
      let addr := w.dma_buf_kmap dma_buf 0
      let s := s.emit (.dma_buf_kmap dma_buf 0)
      if addr = 0 then (0, s)
      else
        match kmap_remaining w dma_buf (pg_cnt - 1) 1 s with
        | (some i, s) => (0, kunmap_down dma_buf addr i s)
        | (none, s) => (addr, { s with alloc_list := set_vaddr s.alloc_list dma_buf addr })

/-- Function `msm_audio_ion_unmap_kernel`. -/
def msm_audio_ion_unmap_kernel (w : World) (dma_buf : Nat) (s : State) : State :=
  let vaddr :=
    match find_alloc s.alloc_list dma_buf with
    | some alloc_data => alloc_data.vaddr
    | none => 0
  if vaddr = 0 then s
  else
    let pg_cnt := page_count w dma_buf
    let s := kunmap_up dma_buf vaddr pg_cnt 0 s
    s.emit (.dma_buf_end_cpu_access dma_buf)

/-! ## Public operations -/

/-- Function `msm_audio_ion_map_buf`. The parameter `vaddr` is passed by value (`void *vaddr`):
the assignment to it inside the function is local and is not part of the result. -/
def msm_audio_ion_map_buf (w : World) (dma_buf : Nat) (paddr plen : Nat) (vaddr : Nat)
    (s : State) : MapOut :=
  let r := msm_audio_ion_get_phys w dma_buf paddr plen s
  if r.rc ≠ 0 then r
  else
    let k := msm_audio_ion_map_kernel w dma_buf r.st
    let vaddr := k.1
    if IS_ERR_OR_NULL vaddr = true then { r with rc := -ENOMEM, st := k.2 }
    else { r with st := k.2 }

/-- The output cells a caller hands to `msm_audio_ion_alloc` and `msm_audio_ion_import`:
`none` is a `NULL` pointer argument, `some v` a pointer to a cell that holds `v`. -/
structure Cells where
  dma_buf : Option (PtrResult Nat)
  paddr : Option Nat
  plen : Option Nat
  vaddr : Option Nat

/-- Result of `msm_audio_ion_alloc` and `msm_audio_ion_import`: the return code, the cells
after the call and the state after the call. -/
structure AllocOut where
  rc : Int
  cells : Cells
  st : State

/-- Function `msm_audio_ion_alloc`. -/
def msm_audio_ion_alloc (w : World) (c : Cells) (bufsz : Nat) (s : State) : AllocOut :=
  if s.device_status &&& MSM_AUDIO_ION_PROBED = 0 then ⟨-EPROBE_DEFER, c, s⟩
  else
    match c.dma_buf, c.paddr, c.vaddr, c.plen with
    | some _, some paddr, some vaddr, some plen =>
      if bufsz = 0 then ⟨-EINVAL, c, s⟩
      else
        let s := s.emit (.ion_alloc bufsz)
        match w.ion_alloc bufsz with
        | .err_ptr e => ⟨-ENOMEM, { c with dma_buf := some (.err_ptr e) }, s⟩
        | .ptr p =>
          let c := { c with dma_buf := some (.ptr p) }
          if p = 0 then ⟨-ENOMEM, c, s⟩
          else
            let r := msm_audio_ion_map_buf w p paddr plen vaddr s
            let c := { c with paddr := some r.addr, plen := some r.len }
            if r.rc ≠ 0 then ⟨r.rc, c, r.st.emit (.dma_buf_put p)⟩
            else ⟨r.rc, c, r.st.emit (.memset vaddr bufsz)⟩
    | _, _, _, _ => ⟨-EINVAL, c, s⟩

/-- Result of `msm_audio_ion_import`: as `AllocOut`, with the `ionflag` cell. -/
structure ImportOut where
  rc : Int
  cells : Cells
  ionflag : Option Nat
  st : State

/-- Function `msm_audio_ion_import`. -/
def msm_audio_ion_import (w : World) (c : Cells) (fd : Int) (ionflag : Option Nat)
    (bufsz : Nat) (s : State) : ImportOut :=
  if s.device_status &&& MSM_AUDIO_ION_PROBED = 0 then ⟨-EPROBE_DEFER, c, ionflag, s⟩
  else
    match c.dma_buf, c.paddr, c.vaddr, c.plen with
    | some _, some paddr, some vaddr, some plen =>
      let s := s.emit (.dma_buf_get fd)
      match w.dma_buf_get fd with
      | .err_ptr _ => ⟨-EINVAL, { c with dma_buf := some (.ptr 0) }, ionflag, s⟩
      | .ptr p =>
        if p = 0 then ⟨-EINVAL, { c with dma_buf := some (.ptr 0) }, ionflag, s⟩
        else
          let fl : Int × Option Nat × State :=
            match ionflag with
            | some old =>
              let g := w.dma_buf_get_flags p old
              (g.1, some g.2, s.emit (.dma_buf_get_flags p))
            | none => (0, none, s)
          if fl.1 ≠ 0 then
            ⟨fl.1, { c with dma_buf := some (.ptr 0) }, fl.2.1, fl.2.2.emit (.dma_buf_put p)⟩
          else
            let r := msm_audio_ion_map_buf w p paddr plen vaddr fl.2.2
            let c := { c with paddr := some r.addr, plen := some r.len }
            if r.rc ≠ 0 then
              ⟨r.rc, { c with dma_buf := some (.ptr 0) }, fl.2.1, r.st.emit (.dma_buf_put p)⟩
            else ⟨0, { c with dma_buf := some (.ptr p) }, fl.2.1, r.st⟩
    | _, _, _, _ => ⟨-EINVAL, c, ionflag, s⟩

/-- Function `msm_audio_ion_free`. -/
def msm_audio_ion_free (w : World) (dma_buf : Nat) (s : State) : Int × State :=
  if dma_buf = 0 then (-EINVAL, s)
  else
    let s := msm_audio_ion_unmap_kernel w dma_buf s
    let r := msm_audio_dma_buf_unmap dma_buf s
    (0, r.2)

/-! ## User-space projector -/

/-- The fields of `struct vm_area_struct` that `msm_audio_ion_mmap` uses. -/
structure vm_area_struct where
  vm_start : Nat
  vm_end : Nat
  vm_pgoff : Nat
  vm_page_prot : Nat
deriving DecidableEq, Repr

/-- The fields of `struct audio_buffer` the driver uses. -/
structure audio_buffer where
  dma_buf : Nat
deriving DecidableEq, Repr

/-- The body of `for_each_sg` in `msm_audio_ion_mmap`, over the entries still to visit, with
the current `addr` and `offset`: `true` when the loop leaves through `return 0`, `false` when
it runs off the end of the list. -/
def mmap_sg_loop (w : World) (vma : vm_area_struct) :
    List Scatterlist → Nat → Nat → State → Bool × State
  | [], _, _, s => (false, s)
  | sg :: rest, addr, offset, s =>
    let remainder := (vma.vm_end + ULONG_MOD - addr) % ULONG_MOD
    let len := sg.length
    let page := sg.page
    if offset ≥ len then mmap_sg_loop w vma rest addr (offset - len) s
    else
      let page := if offset ≠ 0 then page + offset / w.PAGE_SIZE else page
      let len := if offset ≠ 0 then len - offset else len
      let offset := 0
      let len := min len remainder
      let s := s.emit (.remap_pfn_range addr (w.page_to_pfn page) len vma.vm_page_prot)
      let addr := (addr + len) % ULONG_MOD
      if addr ≥ vma.vm_end then (true, s)
      else mmap_sg_loop w vma rest addr offset s

/-- Function `msm_audio_ion_mmap`: the return code, the area after the call and the state
after the call. -/
def msm_audio_ion_mmap (w : World) (abuff : audio_buffer) (vma : vm_area_struct)
    (s : State) : Int × vm_area_struct × State :=
  let addr := vma.vm_start
  let offset := (vma.vm_pgoff * w.PAGE_SIZE) % ULONG_MOD
  match find_alloc s.alloc_list abuff.dma_buf with
  | none => (-EINVAL, vma, s)
  | some alloc_data =>
    let table := alloc_data.table
    let vma := { vma with vm_page_prot := w.pgprot_writecombine vma.vm_page_prot }
    let page := table.sgl.page
    if page ≠ 0 then
      let r := mmap_sg_loop w vma table.entries addr offset s
      (0, vma, r.2)
    else (-EINVAL, vma, s)

/-! ## Cache maintenance -/

/-- Function `msm_audio_ion_cache_operations`; `abuff` is `none` for a `NULL` argument. -/
def msm_audio_ion_cache_operations (w : World) (abuff : Option audio_buffer) (cache_op : Int)
    (s : State) : Int × State :=
  match abuff with
  | none => (-EINVAL, s)
  | some abuff =>
    let g := w.dma_buf_get_flags abuff.dma_buf 0
    let rc := g.1
    let ionflag := g.2
    let s := s.emit (.dma_buf_get_flags abuff.dma_buf)
    if rc ≠ 0 then (rc, s)
    else if ionflag &&& w.ION_FLAG_CACHED ≠ 0 then
      if cache_op = w.MSM_AUDIO_ION_INV_CACHES ∨ cache_op = w.MSM_AUDIO_ION_CLEAN_CACHES then
        (rc, (s.emit (.dma_buf_begin_cpu_access abuff.dma_buf)).emit
          (.dma_buf_end_cpu_access abuff.dma_buf))
      else (rc, s)
    else (-EINVAL, s)

/-! ## Reachable states -/

/-- The registry states the public operations produce from an empty registry, whatever the
kernel answers at each call. -/
inductive Reachable : State → Prop where
  | init (s : State) (h : s.alloc_list = []) : Reachable s
  | of_alloc (w : World) (c : Cells) (bufsz : Nat) (s : State) (hs : Reachable s) :
      Reachable (msm_audio_ion_alloc w c bufsz s).st
  | of_import (w : World) (c : Cells) (fd : Int) (ionflag : Option Nat) (bufsz : Nat)
      (s : State) (hs : Reachable s) :
      Reachable (msm_audio_ion_import w c fd ionflag bufsz s).st
  | of_free (w : World) (dma_buf : Nat) (s : State) (hs : Reachable s) :
      Reachable (msm_audio_ion_free w dma_buf s).2
  | of_mmap (w : World) (abuff : audio_buffer) (vma : vm_area_struct) (s : State)
      (hs : Reachable s) : Reachable (msm_audio_ion_mmap w abuff vma s).2.2
  | of_cache_operations (w : World) (abuff : Option audio_buffer) (cache_op : Int) (s : State)
      (hs : Reachable s) : Reachable (msm_audio_ion_cache_operations w abuff cache_op s).2

/-! ## Concrete systems used in the examples -/

/-- A one-segment table at device address `0x8000_0000`. -/
def table0 : SgTable := ⟨⟨7, 4096, 0x80000000⟩, []⟩

/-- A system with 4 KiB pages and 64-bit bus addresses in which every kernel call succeeds:
every buffer is one page long, `ion_alloc` and `dma_buf_get` return buffer `100`, and page
`i` of a buffer is mapped at `0x1000 * (i + 1)`. -/
def world0 : World where
  PAGE_SIZE := 4096
  dma_addr_bits := 64
  MSM_AUDIO_ION_INV_CACHES := 0
  MSM_AUDIO_ION_CLEAN_CACHES := 1
  ION_FLAG_CACHED := 1
  kzalloc_ok := true
  dma_buf_size := fun _ => 4096
  ion_alloc := fun _ => .ptr 100
  dma_buf_get := fun _ => .ptr 100
  dma_buf_get_flags := fun _ _ => (0, 1)
  dma_buf_attach := fun b => .ptr (b + 1)
  dma_buf_map_attachment := fun _ => .ptr table0
  dma_buf_begin_cpu_access := fun _ => 0
  dma_buf_end_cpu_access := fun _ => 0
  dma_buf_kmap := fun _ i => 0x1000 * (i + 1)
  page_to_pfn := fun p => p
  pgprot_writecombine := fun p => p

/-- The state after a successful probe with SID bits `0x5 << 32` and no buffer. -/
def state0 : State := ⟨MSM_AUDIO_ION_PROBED, 0x5 <<< 32, [], []⟩

/-- Output cells of a caller that passes four valid pointers, to cells holding `0`. -/
def cells0 : Cells := ⟨some (.ptr 0), some 0, some 0, some 0⟩

/-- The state after buffer `100` has been imported once, from descriptor `3`, into
`state0`: the registry holds one record of buffer `100`. -/
def state_live : State := (msm_audio_ion_import world0 cells0 3 none 0 state0).st

/-- The state after buffer `100` has been acquired in `state0` and not yet mapped for the
CPU: its record has no kernel address. -/
def state_acquired : State := (msm_audio_ion_get_phys world0 100 0 0 state0).st

/-- The system `world0` with a page-map provider that fails on page `0`. -/
def world_nokmap : World := { world0 with dma_buf_kmap := fun _ _ => 0 }

/-- The system `world0` with buffers of five pages and a page-map provider that fails on
page `2`. -/
def world_fail2 : World :=
  { world0 with
    dma_buf_size := fun _ => 5 * 4096
    dma_buf_kmap := fun _ i => if i = 2 then 0 else 0x1000 * (i + 1) }

/-- A table of two segments of three pages each. -/
def table_two : SgTable := ⟨⟨7, 12288, 0x80000000⟩, [⟨50, 12288, 0x80003000⟩]⟩

/-- The system `world0` with buffers of six pages, described by `table_two`. -/
def world_two : World :=
  { world0 with
    dma_buf_size := fun _ => 24576
    dma_buf_map_attachment := fun _ => .ptr table_two }

/-- The state after a six-page buffer has been allocated in `state0`. -/
def state_two : State := (msm_audio_ion_alloc world_two cells0 24576 state0).st

/-- A target region of two pages, at page offset `2` of the buffer. -/
def vma_two : vm_area_struct := ⟨0x70000000, 0x70002000, 2, 0⟩

/-- A target region of two pages, at page offset `0` of the buffer. -/
def vma_zero : vm_area_struct := ⟨0x70000000, 0x70002000, 0, 0⟩

/-- The buffer identities of the records of a registry, in list order. -/
def registry_keys (l : List msm_audio_alloc_data) : List Nat := l.map (fun r => r.dma_buf)

/-- The registry states that `msm_audio_ion_alloc`, `msm_audio_ion_import` and
`msm_audio_ion_free` produce from an empty registry when every allocation and every import
obtains a buffer that has no record at the time of the call. -/
inductive ReachableFresh : State → Prop where
  | init (s : State) (h : s.alloc_list = []) : ReachableFresh s
  | of_alloc (w : World) (c : Cells) (bufsz : Nat) (s : State)
      (hfresh : ∀ p, w.ion_alloc bufsz = .ptr p → find_alloc s.alloc_list p = none)
      (hs : ReachableFresh s) : ReachableFresh (msm_audio_ion_alloc w c bufsz s).st
  | of_import (w : World) (c : Cells) (fd : Int) (ionflag : Option Nat) (bufsz : Nat)
      (s : State)
      (hfresh : ∀ p, w.dma_buf_get fd = .ptr p → find_alloc s.alloc_list p = none)
      (hs : ReachableFresh s) :
      ReachableFresh (msm_audio_ion_import w c fd ionflag bufsz s).st
  | of_free (w : World) (dma_buf : Nat) (s : State) (hs : ReachableFresh s) :
      ReachableFresh (msm_audio_ion_free w dma_buf s).2

/-- The state after descriptor `3`, which names buffer `100`, has been imported a second
time, into `state_live`. -/
def state_twice : State := (msm_audio_ion_import world0 cells0 3 none 0 state_live).st

/-- The system `world0` with an allocator that returns buffer `200`. -/
def world_other : World := { world0 with ion_alloc := fun _ => .ptr 200 }

/-- The system `world0` built with a `dma_addr_t` of 32 bits. -/
def world32 : World := { world0 with dma_addr_bits := 32 }

@[simp] theorem emit_alloc_list (s : State) (e : Event) :
    (s.emit e).alloc_list = s.alloc_list := rfl

@[simp] theorem emit_smmu_sid_bits (s : State) (e : Event) :
    (s.emit e).smmu_sid_bits = s.smmu_sid_bits := rfl

@[simp] theorem emit_device_status (s : State) (e : Event) :
    (s.emit e).device_status = s.device_status := rfl

@[simp] theorem emit_trace (s : State) (e : Event) :
    (s.emit e).trace = s.trace ++ [e] := rfl

theorem PTR_ERR_ne_zero (e : Errno) : PTR_ERR e ≠ 0 := by
  have h := e.pos
  unfold PTR_ERR
  omega

theorem find_alloc_none {l : List msm_audio_alloc_data} {b : Nat} :
    find_alloc l b = none ↔ ∀ r ∈ l, r.dma_buf ≠ b := by
  induction l with
  | nil => simp [find_alloc]
  | cons x xs ih =>
    unfold find_alloc
    split
    · simp_all
    · simp_all

theorem find_alloc_append (l m : List msm_audio_alloc_data) (b : Nat) :
    find_alloc (l ++ m) b =
      match find_alloc l b with
      | some r => some r
      | none => find_alloc m b := by
  induction l with
  | nil => cases h : find_alloc m b <;> simp [find_alloc, h]
  | cons x xs ih =>
    simp only [List.cons_append, find_alloc]
    split
    · rfl
    · exact ih

theorem del_alloc_of_find_none {l : List msm_audio_alloc_data} {b : Nat}
    (h : find_alloc l b = none) : del_alloc l b = l := by
  induction l with
  | nil => rfl
  | cons x xs ih =>
    unfold find_alloc at h
    unfold del_alloc
    split at h
    · cases h
    · rename_i hx
      simp [hx, ih h]

theorem del_alloc_append_of_find_none {l : List msm_audio_alloc_data} {b : Nat}
    (h : find_alloc l b = none) (r : msm_audio_alloc_data) (hr : r.dma_buf = b) :
    del_alloc (l ++ [r]) b = l := by
  induction l with
  | nil => simp [del_alloc, hr]
  | cons x xs ih =>
    unfold find_alloc at h
    split at h
    · cases h
    · rename_i hx
      simp [del_alloc, hx, ih h]

/-- A successful `msm_audio_dma_buf_map` is exactly one where the record allocation, the
attach and the scatter-gather mapping all succeeded; it appends one record. -/
theorem dma_buf_map_ok {w : World} {b a l : Nat} {s : State}
    (h : (msm_audio_dma_buf_map w b a l s).rc = 0) :
    ∃ att tbl, w.kzalloc_ok = true ∧ w.dma_buf_attach b = .ptr att ∧
      w.dma_buf_map_attachment att = .ptr tbl ∧
      (msm_audio_dma_buf_map w b a l s).addr = tbl.sgl.dma_address ∧
      (msm_audio_dma_buf_map w b a l s).len = w.dma_buf_size b ∧
      (msm_audio_dma_buf_map w b a l s).st.alloc_list
        = s.alloc_list ++ [⟨w.dma_buf_size b, 0, b, att, tbl⟩] ∧
      (msm_audio_dma_buf_map w b a l s).st.smmu_sid_bits = s.smmu_sid_bits := by
  unfold msm_audio_dma_buf_map at h ⊢
  cases hk : w.kzalloc_ok
  · simp [hk, ENOMEM] at h
  · cases ha : w.dma_buf_attach b with
    | err_ptr e => simp [hk, ha, PTR_ERR_ne_zero] at h
    | ptr att =>
      cases hm : w.dma_buf_map_attachment att with
      | err_ptr e => simp [hk, ha, hm, PTR_ERR_ne_zero] at h
      | ptr tbl =>
        exact ⟨att, tbl, rfl, rfl, hm, by
          simp [hm, msm_audio_ion_add_allocation, MSM_AUDIO_ION_PHYS_ADDR]⟩

theorem dma_buf_map_of_ok {w : World} {b att : Nat} {tbl : SgTable} (a l : Nat) (s : State)
    (hk : w.kzalloc_ok = true) (ha : w.dma_buf_attach b = .ptr att)
    (hm : w.dma_buf_map_attachment att = .ptr tbl) :
    msm_audio_dma_buf_map w b a l s =
      ⟨0, tbl.sgl.dma_address, w.dma_buf_size b,
        msm_audio_ion_add_allocation
          ((s.emit (.dma_buf_attach b)).emit (.dma_buf_map_attachment att))
          ⟨w.dma_buf_size b, 0, b, att, tbl⟩⟩ := by
  simp [msm_audio_dma_buf_map, hk, ha, hm, MSM_AUDIO_ION_PHYS_ADDR]

/-! ## Address composition -/

/-- C1 as stated fails: with a `dma_addr_t` of 32 bits, SID bits `M = 0x5 << 32` and a
first segment at `A = 0x8000_0000`, which share no bit, the acquire succeeds and returns
`0x8000_0000`, not `A ||| M`. -/
theorem get_phys_composes_sid_counterexample :
    table0.sgl.dma_address &&& state0.smmu_sid_bits = 0 ∧
      (msm_audio_ion_get_phys world32 100 0 0 state0).rc = 0 ∧
      (msm_audio_ion_get_phys world32 100 0 0 state0).addr = 0x80000000 ∧
      (msm_audio_ion_get_phys world32 100 0 0 state0).addr
        ≠ table0.sgl.dma_address ||| state0.smmu_sid_bits := by
  decide

/-- C1, amended: when the record allocation, the attach and the scatter-gather mapping
succeed, `msm_audio_ion_get_phys` succeeds and returns the device address `A` of the first
scatter-gather segment with the SID bits `M` of the state OR-ed into it, truncated to the
width of `dma_addr_t`; this is `A ||| M` whenever `M` fits `dma_addr_t`, and `A` unchanged
when `M = 0`. -/
theorem get_phys_composes_sid (w : World) (s : State) (b a l att : Nat) (tbl : SgTable)
    (hk : w.kzalloc_ok = true) (ha : w.dma_buf_attach b = .ptr att)
    (hm : w.dma_buf_map_attachment att = .ptr tbl)
    (hA : tbl.sgl.dma_address < 2 ^ w.dma_addr_bits) :
    (msm_audio_ion_get_phys w b a l s).rc = 0 ∧
      (msm_audio_ion_get_phys w b a l s).addr
        = (tbl.sgl.dma_address ||| s.smmu_sid_bits) % 2 ^ w.dma_addr_bits ∧
      (s.smmu_sid_bits < 2 ^ w.dma_addr_bits →
        (msm_audio_ion_get_phys w b a l s).addr = tbl.sgl.dma_address ||| s.smmu_sid_bits) ∧
      (s.smmu_sid_bits = 0 → (msm_audio_ion_get_phys w b a l s).addr = tbl.sgl.dma_address) := by
  have haddr : (msm_audio_ion_get_phys w b a l s).addr
      = (tbl.sgl.dma_address ||| s.smmu_sid_bits) % 2 ^ w.dma_addr_bits := by
    simp [msm_audio_ion_get_phys, dma_buf_map_of_ok a l s hk ha hm,
      msm_audio_ion_add_allocation]
  refine ⟨?_, haddr, ?_, ?_⟩
  · simp [msm_audio_ion_get_phys, dma_buf_map_of_ok a l s hk ha hm]
  · intro hM
    rw [haddr]
    exact Nat.mod_eq_of_lt (Nat.or_lt_two_pow hA hM)
  · intro h0
    rw [haddr, h0, Nat.or_zero]
    exact Nat.mod_eq_of_lt hA

/-- C1, amended, at the documented scenario: with a `dma_addr_t` of 64 bits, SID bits
`0x5 << 32` and device address `0x8000_0000` compose to the bus address `0x5_8000_0000`. -/
theorem get_phys_composes_sid_witness :
    (msm_audio_ion_get_phys world0 100 0 0 state0).rc = 0 ∧
      (msm_audio_ion_get_phys world0 100 0 0 state0).addr = 0x580000000 := by
  have h := get_phys_composes_sid world0 state0 100 0 0 101 table0 rfl rfl rfl (by decide)
  exact ⟨h.1, (h.2.2.1 (by decide)).trans (by decide)⟩

/-! ## Registry facts about the kernel access mapper and release -/

theorem kmap_remaining_alloc_list (w : World) (b : Nat) :
    ∀ (n i : Nat) (s : State), (kmap_remaining w b n i s).2.alloc_list = s.alloc_list := by
  intro n
  induction n with
  | zero => intro i s; rfl
  | succ n ih =>
    intro i s
    unfold kmap_remaining
    simp only
    split
    · rfl
    · rw [ih]; rfl

theorem kunmap_down_alloc_list (b a : Nat) :
    ∀ (i : Nat) (s : State), (kunmap_down b a i s).alloc_list = s.alloc_list := by
  intro i
  induction i with
  | zero => intro s; rfl
  | succ i ih => intro s; unfold kunmap_down; rw [ih]; rfl

theorem kunmap_up_alloc_list (b a : Nat) :
    ∀ (n i : Nat) (s : State), (kunmap_up b a n i s).alloc_list = s.alloc_list := by
  intro n
  induction n with
  | zero => intro i s; rfl
  | succ n ih => intro i s; unfold kunmap_up; rw [ih]; rfl

/-- What `msm_audio_ion_map_kernel` does to the registry: nothing when it returns `NULL`,
and otherwise it stores the returned address in the first record of the buffer. -/
theorem map_kernel_alloc_list (w : World) (b : Nat) (s : State) :
    (msm_audio_ion_map_kernel w b s).2.alloc_list =
      if (msm_audio_ion_map_kernel w b s).1 = 0 then s.alloc_list
      else set_vaddr s.alloc_list b (msm_audio_ion_map_kernel w b s).1 := by
  unfold msm_audio_ion_map_kernel
  simp only
  split
  · simp
  · split
    · simp
    · split
      · simp
      · rename_i haddr
        have hl := kmap_remaining_alloc_list w b (page_count w b - 1) 1
          ((s.emit (.dma_buf_begin_cpu_access b)).emit (.dma_buf_kmap b 0))
        cases hk : kmap_remaining w b (page_count w b - 1) 1
          ((s.emit (.dma_buf_begin_cpu_access b)).emit (.dma_buf_kmap b 0)) with
        | mk o s1 =>
          rw [hk] at hl
          cases o with
          | some i => simp [kunmap_down_alloc_list]; simpa using hl
          | none => simp [haddr]; simp at hl; rw [hl]

/-- The registry is not written by `msm_audio_ion_unmap_kernel`. -/
theorem unmap_kernel_alloc_list (w : World) (b : Nat) (s : State) :
    (msm_audio_ion_unmap_kernel w b s).alloc_list = s.alloc_list := by
  unfold msm_audio_ion_unmap_kernel
  simp only
  split
  · rfl
  · simp [kunmap_up_alloc_list]

theorem dma_buf_unmap_alloc_list (b : Nat) (s : State) :
    (msm_audio_dma_buf_unmap b s).2.alloc_list = del_alloc s.alloc_list b := by
  unfold msm_audio_dma_buf_unmap
  cases h : find_alloc s.alloc_list b with
  | none => simp [del_alloc_of_find_none h]
  | some r => simp

theorem dma_buf_unmap_rc (b : Nat) (s : State) :
    (msm_audio_dma_buf_unmap b s).1 =
      if find_alloc s.alloc_list b = none then -EINVAL else 0 := by
  unfold msm_audio_dma_buf_unmap
  cases h : find_alloc s.alloc_list b <;> simp

theorem free_alloc_list (w : World) (b : Nat) (s : State) (hb : b ≠ 0) :
    (msm_audio_ion_free w b s).2.alloc_list = del_alloc s.alloc_list b := by
  simp [msm_audio_ion_free, hb, dma_buf_unmap_alloc_list, unmap_kernel_alloc_list]

theorem free_rc (w : World) (b : Nat) (s : State) (hb : b ≠ 0) :
    (msm_audio_ion_free w b s).1 = 0 := by
  simp [msm_audio_ion_free, hb]

theorem set_vaddr_append_of_find_none {l : List msm_audio_alloc_data} {b : Nat}
    (h : find_alloc l b = none) (r : msm_audio_alloc_data) (hr : r.dma_buf = b) (a : Nat) :
    set_vaddr (l ++ [r]) b a = l ++ [{ r with vaddr := a }] := by
  induction l with
  | nil => simp [set_vaddr, hr]
  | cons x xs ih =>
    unfold find_alloc at h
    split at h
    · cases h
    · rename_i hx
      simp [set_vaddr, hx, ih h]

theorem find_alloc_set_vaddr_same (l : List msm_audio_alloc_data) (b a : Nat) :
    find_alloc (set_vaddr l b a) b =
      (find_alloc l b).map (fun r => { r with vaddr := a }) := by
  induction l with
  | nil => rfl
  | cons x xs ih =>
    unfold set_vaddr find_alloc
    by_cases hx : x.dma_buf = b
    · simp [hx, find_alloc]
    · simp [hx, find_alloc, ih]

theorem IS_ERR_OR_NULL_false {p : Nat} (h : IS_ERR_OR_NULL p = false) : p ≠ 0 := by
  intro h0
  simp [IS_ERR_OR_NULL, h0] at h

/-- The two ways `msm_audio_ion_map_buf` ends once `msm_audio_ion_get_phys` has succeeded. -/
theorem map_buf_of_get_phys_ok (w : World) (b pa pl va : Nat) (s : State)
    (h : (msm_audio_ion_get_phys w b pa pl s).rc = 0) :
    msm_audio_ion_map_buf w b pa pl va s =
      if IS_ERR_OR_NULL (msm_audio_ion_map_kernel w b (msm_audio_ion_get_phys w b pa pl s).st).1
          = true then
        { msm_audio_ion_get_phys w b pa pl s with
          rc := -ENOMEM
          st := (msm_audio_ion_map_kernel w b (msm_audio_ion_get_phys w b pa pl s).st).2 }
      else
        { msm_audio_ion_get_phys w b pa pl s with
          st := (msm_audio_ion_map_kernel w b (msm_audio_ion_get_phys w b pa pl s).st).2 } := by
  simp [msm_audio_ion_map_buf, h]

theorem map_buf_of_get_phys_err (w : World) (b pa pl va : Nat) (s : State)
    (h : (msm_audio_ion_get_phys w b pa pl s).rc ≠ 0) :
    msm_audio_ion_map_buf w b pa pl va s = msm_audio_ion_get_phys w b pa pl s := by
  simp [msm_audio_ion_map_buf, h]

theorem get_phys_rc (w : World) (b a l : Nat) (s : State) :
    (msm_audio_ion_get_phys w b a l s).rc = (msm_audio_dma_buf_map w b a l s).rc := by
  unfold msm_audio_ion_get_phys
  simp only
  split <;> rfl

theorem get_phys_st (w : World) (b a l : Nat) (s : State) :
    (msm_audio_ion_get_phys w b a l s).st = (msm_audio_dma_buf_map w b a l s).st := by
  unfold msm_audio_ion_get_phys
  simp only
  split <;> rfl

theorem get_phys_len (w : World) (b a l : Nat) (s : State) :
    (msm_audio_ion_get_phys w b a l s).len = (msm_audio_dma_buf_map w b a l s).len := by
  unfold msm_audio_ion_get_phys
  simp only
  split <;> rfl

/-- A successful `msm_audio_ion_map_buf`: the acquire step appended the record of the
buffer and the kernel-mapping step returned a valid address. -/
theorem map_buf_ok {w : World} {b pa pl va : Nat} {s : State}
    (h : (msm_audio_ion_map_buf w b pa pl va s).rc = 0) :
    (msm_audio_ion_get_phys w b pa pl s).rc = 0 ∧
      IS_ERR_OR_NULL (msm_audio_ion_map_kernel w b (msm_audio_ion_get_phys w b pa pl s).st).1
        = false ∧
      (msm_audio_ion_map_buf w b pa pl va s).st
        = (msm_audio_ion_map_kernel w b (msm_audio_ion_get_phys w b pa pl s).st).2 ∧
      (msm_audio_ion_map_buf w b pa pl va s).addr = (msm_audio_ion_get_phys w b pa pl s).addr ∧
      (msm_audio_ion_map_buf w b pa pl va s).len = (msm_audio_ion_get_phys w b pa pl s).len := by
  by_cases hg : (msm_audio_ion_get_phys w b pa pl s).rc = 0
  · rw [map_buf_of_get_phys_ok w b pa pl va s hg] at h ⊢
    cases hk : IS_ERR_OR_NULL
      (msm_audio_ion_map_kernel w b (msm_audio_ion_get_phys w b pa pl s).st).1
    · simp [hg]
    · simp [hk, ENOMEM] at h
  · rw [map_buf_of_get_phys_err w b pa pl va s hg] at h
    exact absurd h hg

/-- The shape of a successful `msm_audio_ion_alloc`. -/
theorem alloc_ok {w : World} {c : Cells} {bufsz : Nat} {s : State}
    (h : (msm_audio_ion_alloc w c bufsz s).rc = 0) :
    ∃ d pa va pl p, c.dma_buf = some d ∧ c.paddr = some pa ∧ c.vaddr = some va ∧
      c.plen = some pl ∧ bufsz ≠ 0 ∧ w.ion_alloc bufsz = .ptr p ∧ p ≠ 0 ∧
      (msm_audio_ion_map_buf w p pa pl va (s.emit (.ion_alloc bufsz))).rc = 0 ∧
      msm_audio_ion_alloc w c bufsz s =
        ⟨0, { dma_buf := some (.ptr p)
              paddr := some (msm_audio_ion_map_buf w p pa pl va (s.emit (.ion_alloc bufsz))).addr
              plen := some (msm_audio_ion_map_buf w p pa pl va (s.emit (.ion_alloc bufsz))).len
              vaddr := some va },
          (msm_audio_ion_map_buf w p pa pl va (s.emit (.ion_alloc bufsz))).st.emit
            (.memset va bufsz)⟩ := by
  obtain ⟨cd, cpa, cpl, cva⟩ := c
  unfold msm_audio_ion_alloc at h ⊢
  by_cases hp : s.device_status &&& MSM_AUDIO_ION_PROBED = 0
  · simp [hp, EPROBE_DEFER] at h
  · simp only [hp, if_false] at h ⊢
    cases cd with
    | none => simp [EINVAL] at h
    | some d =>
      cases cpa with
      | none => simp [EINVAL] at h
      | some pa =>
        cases cva with
        | none => simp [EINVAL] at h
        | some va =>
          cases cpl with
          | none => simp [EINVAL] at h
          | some pl =>
            by_cases hb : bufsz = 0
            · simp [hb, EINVAL] at h
            · cases hi : w.ion_alloc bufsz with
              | err_ptr e => simp [hb, hi, ENOMEM] at h
              | ptr p =>
                by_cases hp0 : p = 0
                · simp [hb, hi, hp0, ENOMEM] at h
                · simp only [hb, hi, hp0, if_false] at h ⊢
                  by_cases hr : (msm_audio_ion_map_buf w p pa pl va
                      (s.emit (.ion_alloc bufsz))).rc = 0
                  · exact ⟨d, pa, va, pl, p, rfl, rfl, rfl, rfl, hb, rfl, hp0, hr, by
                      simp [hr]⟩
                  · simp [hr] at h

/-- The registry after a successful `msm_audio_ion_map_buf`: the record of the buffer was
appended and the address `k` returned by the kernel-mapping step, which is a valid address,
was stored in the first record of the buffer. -/
theorem map_buf_ok_alloc_list {w : World} {b pa pl va : Nat} {s : State}
    (h : (msm_audio_ion_map_buf w b pa pl va s).rc = 0) :
    ∃ att tbl k, w.dma_buf_attach b = .ptr att ∧ w.dma_buf_map_attachment att = .ptr tbl ∧
      k = (msm_audio_ion_map_kernel w b (msm_audio_ion_get_phys w b pa pl s).st).1 ∧
      IS_ERR_OR_NULL k = false ∧
      (msm_audio_ion_map_buf w b pa pl va s).len = w.dma_buf_size b ∧
      (msm_audio_ion_map_buf w b pa pl va s).st.alloc_list
        = set_vaddr (s.alloc_list ++ [⟨w.dma_buf_size b, 0, b, att, tbl⟩]) b k := by
  obtain ⟨hg, hk, hst, -, hlen⟩ := map_buf_ok h
  rw [get_phys_rc] at hg
  obtain ⟨att, tbl, -, ha, hm, -, hl, hlist, -⟩ := dma_buf_map_ok hg
  refine ⟨att, tbl, _, ha, hm, rfl, hk, ?_, ?_⟩
  · rw [hlen, get_phys_len, hl]
  · rw [hst, map_kernel_alloc_list, if_neg (IS_ERR_OR_NULL_false hk), get_phys_st, hlist]

/-! ## Release through `msm_audio_ion_free` -/

/-- C2 (what the code does): after a successful `msm_audio_ion_alloc` of a buffer `b` that
had no record, the first `msm_audio_ion_free` of `b` returns `0` and leaves no record of
`b`; in the second `msm_audio_ion_free` of `b` the release step `msm_audio_dma_buf_unmap`
reports `-EINVAL`, and `msm_audio_ion_free` returns `0` all the same. -/
theorem free_twice_after_alloc (w wf1 wf2 : World) (c : Cells) (bufsz b : Nat) (s : State)
    (hok : (msm_audio_ion_alloc w c bufsz s).rc = 0)
    (hi : w.ion_alloc bufsz = .ptr b)
    (hfresh : find_alloc s.alloc_list b = none) :
    (msm_audio_ion_alloc w c bufsz s).cells.dma_buf = some (.ptr b) ∧
      (msm_audio_ion_free wf1 b (msm_audio_ion_alloc w c bufsz s).st).1 = 0 ∧
      find_alloc (msm_audio_ion_free wf1 b (msm_audio_ion_alloc w c bufsz s).st).2.alloc_list b
        = none ∧
      (msm_audio_dma_buf_unmap b
        (msm_audio_ion_unmap_kernel wf2 b
          (msm_audio_ion_free wf1 b (msm_audio_ion_alloc w c bufsz s).st).2)).1 = -EINVAL ∧
      (msm_audio_ion_free wf2 b
        (msm_audio_ion_free wf1 b (msm_audio_ion_alloc w c bufsz s).st).2).1 = 0 := by
  obtain ⟨d, pa, va, pl, p, -, -, -, -, -, hi2, hp0, hr, heq⟩ := alloc_ok hok
  have hpb : p = b := by
    rw [hi] at hi2
    cases hi2
    rfl
  subst hpb
  obtain ⟨att, tbl, k, -, -, -, -, -, hlist⟩ := map_buf_ok_alloc_list hr
  have hfresh2 : find_alloc (s.emit (.ion_alloc bufsz)).alloc_list p = none := hfresh
  rw [set_vaddr_append_of_find_none hfresh2 _ rfl] at hlist
  have hl1 : (msm_audio_ion_alloc w c bufsz s).st.alloc_list
      = s.alloc_list ++ [⟨w.dma_buf_size p, k, p, att, tbl⟩] := by
    rw [heq]
    simpa using hlist
  have hl2 : (msm_audio_ion_free wf1 p (msm_audio_ion_alloc w c bufsz s).st).2.alloc_list
      = s.alloc_list := by
    rw [free_alloc_list _ _ _ hp0, hl1, del_alloc_append_of_find_none hfresh _ rfl]
  refine ⟨?_, free_rc _ _ _ hp0, ?_, ?_, free_rc _ _ _ hp0⟩
  · rw [heq]
  · rw [hl2]
    exact hfresh
  · rw [dma_buf_unmap_rc, unmap_kernel_alloc_list, hl2, if_pos hfresh]

/-- C2 at the documented scenario: allocate 4096 bytes, free, free again. -/
theorem free_twice_after_alloc_witness :
    (msm_audio_ion_alloc world0 cells0 4096 state0).rc = 0 ∧
      (msm_audio_ion_free world0 100
        (msm_audio_ion_free world0 100 (msm_audio_ion_alloc world0 cells0 4096 state0).st).2).1
        = 0 :=
  ⟨by decide,
    (free_twice_after_alloc world0 world0 world0 cells0 4096 100 state0 (by decide) rfl
      rfl).2.2.2.2⟩

/-! ## Operations that do not write the registry -/

theorem mmap_sg_loop_alloc_list (w : World) (vma : vm_area_struct) :
    ∀ (l : List Scatterlist) (addr offset : Nat) (s : State),
      (mmap_sg_loop w vma l addr offset s).2.alloc_list = s.alloc_list := by
  intro l
  induction l with
  | nil => intro addr offset s; rfl
  | cons sg rest ih =>
    intro addr offset s
    unfold mmap_sg_loop
    simp only
    split
    · exact ih _ _ _
    · split <;> split <;> first | rfl | (rw [ih]; rfl)

/-- The registry is not written by `msm_audio_ion_mmap`. -/
theorem mmap_alloc_list (w : World) (abuff : audio_buffer) (vma : vm_area_struct) (s : State) :
    (msm_audio_ion_mmap w abuff vma s).2.2.alloc_list = s.alloc_list := by
  unfold msm_audio_ion_mmap
  simp only
  split
  · rfl
  · split
    · simp [mmap_sg_loop_alloc_list]
    · rfl

/-- The registry is not written by `msm_audio_ion_cache_operations`. -/
theorem cache_operations_alloc_list (w : World) (abuff : Option audio_buffer) (cache_op : Int)
    (s : State) :
    (msm_audio_ion_cache_operations w abuff cache_op s).2.alloc_list = s.alloc_list := by
  unfold msm_audio_ion_cache_operations
  split
  · rfl
  · simp only
    split
    · rfl
    · split
      · split <;> rfl
      · rfl

/-! ## Acquire, lookup and release -/

/-- C3 as stated fails: buffer `100` is live in the reachable state `state_live`; a further
acquire of it succeeds, and after one release the lookup of `100` still finds a record and
a second release returns `0`. -/
theorem release_after_acquire_counterexample :
    Reachable state_live ∧
      (msm_audio_ion_get_phys world0 100 0 0 state_live).rc = 0 ∧
      find_alloc (msm_audio_dma_buf_unmap 100
        (msm_audio_ion_get_phys world0 100 0 0 state_live).st).2.alloc_list 100 ≠ none ∧
      (msm_audio_dma_buf_unmap 100 (msm_audio_dma_buf_unmap 100
        (msm_audio_ion_get_phys world0 100 0 0 state_live).st).2).1 = 0 :=
  ⟨Reachable.of_import world0 cells0 3 none 0 state0 (Reachable.init state0 rfl),
    by decide, by decide, by decide⟩

/-- C3, amended: when `b` has no record before the acquire, `msm_audio_dma_buf_unmap` of `b`
after a successful `msm_audio_ion_get_phys` of `b` returns `0` and leaves the lookup of `b`
without result, and a second `msm_audio_dma_buf_unmap` of `b` returns `-EINVAL` and leaves
the state as it was. -/
theorem release_after_fresh_acquire (w : World) (s : State) (b a l : Nat)
    (hfresh : find_alloc s.alloc_list b = none)
    (hok : (msm_audio_ion_get_phys w b a l s).rc = 0) :
    (msm_audio_dma_buf_unmap b (msm_audio_ion_get_phys w b a l s).st).1 = 0 ∧
      find_alloc
        (msm_audio_dma_buf_unmap b (msm_audio_ion_get_phys w b a l s).st).2.alloc_list b
        = none ∧
      msm_audio_dma_buf_unmap b
        (msm_audio_dma_buf_unmap b (msm_audio_ion_get_phys w b a l s).st).2
        = (-EINVAL, (msm_audio_dma_buf_unmap b (msm_audio_ion_get_phys w b a l s).st).2) := by
  rw [get_phys_rc] at hok
  obtain ⟨att, tbl, -, -, -, -, -, hlist, -⟩ := dma_buf_map_ok hok
  have hfound : find_alloc (msm_audio_ion_get_phys w b a l s).st.alloc_list b
      = some ⟨w.dma_buf_size b, 0, b, att, tbl⟩ := by
    rw [get_phys_st, hlist, find_alloc_append, hfresh]
    simp [find_alloc]
  have hafter : find_alloc
      (msm_audio_dma_buf_unmap b (msm_audio_ion_get_phys w b a l s).st).2.alloc_list b
      = none := by
    rw [dma_buf_unmap_alloc_list, get_phys_st, hlist,
      del_alloc_append_of_find_none hfresh _ rfl]
    exact hfresh
  refine ⟨?_, hafter, ?_⟩
  · rw [dma_buf_unmap_rc, hfound]
    simp
  · generalize (msm_audio_dma_buf_unmap b (msm_audio_ion_get_phys w b a l s).st).2 = s2
      at hafter ⊢
    simp [msm_audio_dma_buf_unmap, hafter]

/-- C3, amended, at the documented scenario: buffer `100` acquired in the empty registry. -/
theorem release_after_fresh_acquire_witness :
    (msm_audio_dma_buf_unmap 100 (msm_audio_ion_get_phys world0 100 0 0 state0).st).1 = 0 ∧
      find_alloc
        (msm_audio_dma_buf_unmap 100
          (msm_audio_ion_get_phys world0 100 0 0 state0).st).2.alloc_list 100
        = none ∧
      msm_audio_dma_buf_unmap 100
        (msm_audio_dma_buf_unmap 100 (msm_audio_ion_get_phys world0 100 0 0 state0).st).2
        = (-EINVAL,
            (msm_audio_dma_buf_unmap 100 (msm_audio_ion_get_phys world0 100 0 0 state0).st).2) :=
  release_after_fresh_acquire world0 state0 100 0 0 rfl (by decide)

/-! ## Kernel mapping round trip -/

/-- C4 as stated fails: buffer `100` has a record without kernel address; mapping it for
the CPU succeeds with address `0x1000`, and after unmapping it the record still holds
`0x1000`. -/
theorem map_unmap_kernel_counterexample :
    (find_alloc state_acquired.alloc_list 100).map (fun r => r.vaddr) = some 0 ∧
      (msm_audio_ion_map_kernel world0 100 state_acquired).1 = 0x1000 ∧
      (find_alloc (msm_audio_ion_unmap_kernel world0 100
        (msm_audio_ion_map_kernel world0 100 state_acquired).2).alloc_list 100).map
          (fun r => r.vaddr) = some 0x1000 := by
  decide

theorem kunmap_up_eq (b a : Nat) :
    ∀ (n i : Nat) (s : State),
      kunmap_up b a n i s =
        { s with
          trace := s.trace ++ (List.range' i n).map (fun j => .dma_buf_kunmap b j a) } := by
  intro n
  induction n with
  | zero => intro i s; simp [kunmap_up]
  | succ n ih =>
    intro i s
    unfold kunmap_up
    rw [ih, List.range'_succ]
    simp [State.emit]

/-- C4, amended: for a buffer `b` whose record `r` has no kernel address, after
`msm_audio_ion_map_kernel` of `b` has returned an address `k` other than `NULL`,
`msm_audio_ion_unmap_kernel` of `b` (on a buffer whose page count is within the range of
the `int` loop counter) unmaps the pages `0 .. page_count - 1` at `k`, in this order, then
leaves the CPU-access scope, and changes nothing else of the state: the record of `b` is
still `r` with `k` in its `vaddr` field, which is not reset. -/
theorem map_unmap_kernel_keeps_vaddr (w wu : World) (s : State) (b : Nat)
    (r : msm_audio_alloc_data) (hr : find_alloc s.alloc_list b = some r) (hv : r.vaddr = 0)
    (hok : (msm_audio_ion_map_kernel w b s).1 ≠ 0) (hint : page_count wu b ≤ INT_MAX) :
    msm_audio_ion_unmap_kernel wu b (msm_audio_ion_map_kernel w b s).2 =
        { (msm_audio_ion_map_kernel w b s).2 with
          trace := (msm_audio_ion_map_kernel w b s).2.trace
            ++ (List.range (page_count wu b)).map
                (fun j => .dma_buf_kunmap b j (msm_audio_ion_map_kernel w b s).1)
            ++ [.dma_buf_end_cpu_access b] } ∧
      find_alloc (msm_audio_ion_unmap_kernel wu b
          (msm_audio_ion_map_kernel w b s).2).alloc_list b
        = some { r with vaddr := (msm_audio_ion_map_kernel w b s).1 } ∧
      (msm_audio_ion_unmap_kernel wu b (msm_audio_ion_map_kernel w b s).2).alloc_list
        = (msm_audio_ion_map_kernel w b s).2.alloc_list := by
  have hfound : find_alloc (msm_audio_ion_map_kernel w b s).2.alloc_list b
      = some { r with vaddr := (msm_audio_ion_map_kernel w b s).1 } := by
    rw [map_kernel_alloc_list, if_neg hok, find_alloc_set_vaddr_same, hr]
    rfl
  refine ⟨?_, ?_, unmap_kernel_alloc_list _ _ _⟩
  · unfold msm_audio_ion_unmap_kernel
    simp only [hfound, hok, if_false, kunmap_up_eq, List.range_eq_range']
    simp [State.emit]
  · rw [unmap_kernel_alloc_list]
    exact hfound

/-- C4, amended, on buffer `100` of `state_acquired`: the one page of the buffer is
unmapped at `0x1000`, the CPU-access scope is left, and the record keeps `0x1000`. -/
theorem map_unmap_kernel_keeps_vaddr_witness :
    (msm_audio_ion_unmap_kernel world0 100
        (msm_audio_ion_map_kernel world0 100 state_acquired).2).trace
      = (msm_audio_ion_map_kernel world0 100 state_acquired).2.trace
          ++ [.dma_buf_kunmap 100 0 0x1000, .dma_buf_end_cpu_access 100] ∧
      find_alloc (msm_audio_ion_unmap_kernel world0 100
          (msm_audio_ion_map_kernel world0 100 state_acquired).2).alloc_list 100
        = some ⟨4096, 0x1000, 100, 101, table0⟩ :=
  ⟨(congrArg State.trace
      (map_unmap_kernel_keeps_vaddr world0 world0 state_acquired 100
        ⟨4096, 0, 100, 101, table0⟩ (by decide) rfl (by decide) (by decide)).1).trans
      (by decide),
    (map_unmap_kernel_keeps_vaddr world0 world0 state_acquired 100
      ⟨4096, 0, 100, 101, table0⟩ (by decide) rfl (by decide) (by decide)).2.1.trans
      (by decide)⟩

/-! ## Unwinding after a failed kernel mapping -/

theorem set_vaddr_length (l : List msm_audio_alloc_data) (b a : Nat) :
    (set_vaddr l b a).length = l.length := by
  induction l with
  | nil => rfl
  | cons x xs ih =>
    unfold set_vaddr
    split <;> simp [ih]

theorem map_kernel_alloc_list_length (w : World) (b : Nat) (s : State) :
    (msm_audio_ion_map_kernel w b s).2.alloc_list.length = s.alloc_list.length := by
  rw [map_kernel_alloc_list]
  split
  · rfl
  · exact set_vaddr_length _ _ _

theorem kmap_remaining_fst_indep (w : World) (b : Nat) :
    ∀ (n i : Nat) (s t : State), (kmap_remaining w b n i s).1 = (kmap_remaining w b n i t).1 := by
  intro n
  induction n with
  | zero => intro i s t; rfl
  | succ n ih =>
    intro i s t
    unfold kmap_remaining
    simp only
    split
    · rfl
    · exact ih _ _ _

/-- The address `msm_audio_ion_map_kernel` returns depends on the answers of the kernel
only, not on the driver state. -/
theorem map_kernel_fst_indep (w : World) (b : Nat) (s t : State) :
    (msm_audio_ion_map_kernel w b s).1 = (msm_audio_ion_map_kernel w b t).1 := by
  unfold msm_audio_ion_map_kernel
  simp only
  split
  · rfl
  · split
    · rfl
    · split
      · rfl
      · have h := kmap_remaining_fst_indep w b (page_count w b - 1) 1
          ((s.emit (.dma_buf_begin_cpu_access b)).emit (.dma_buf_kmap b 0))
          ((t.emit (.dma_buf_begin_cpu_access b)).emit (.dma_buf_kmap b 0))
        cases hs : kmap_remaining w b (page_count w b - 1) 1
          ((s.emit (.dma_buf_begin_cpu_access b)).emit (.dma_buf_kmap b 0)) with
        | mk o1 s1 =>
          cases ht : kmap_remaining w b (page_count w b - 1) 1
            ((t.emit (.dma_buf_begin_cpu_access b)).emit (.dma_buf_kmap b 0)) with
          | mk o2 t1 =>
            rw [hs, ht] at h
            simp only at h
            subst h
            cases o1 <;> rfl

theorem get_phys_rc_of_ok {w : World} {b att : Nat} {tbl : SgTable} (a l : Nat) (s : State)
    (hk : w.kzalloc_ok = true) (ha : w.dma_buf_attach b = .ptr att)
    (hm : w.dma_buf_map_attachment att = .ptr tbl) :
    (msm_audio_ion_get_phys w b a l s).rc = 0 := by
  rw [get_phys_rc, dma_buf_map_of_ok a l s hk ha hm]

/-- When the acquire step succeeds and the kernel-mapping step fails,
`msm_audio_ion_map_buf` returns `-ENOMEM` with the record of the acquire step still in the
registry. -/
theorem map_buf_kernel_failure (w : World) (b pa pl va : Nat) (s : State)
    (hacq : (msm_audio_ion_get_phys w b pa pl s).rc = 0)
    (hfail : IS_ERR_OR_NULL
      (msm_audio_ion_map_kernel w b (msm_audio_ion_get_phys w b pa pl s).st).1 = true) :
    (msm_audio_ion_map_buf w b pa pl va s).rc = -ENOMEM ∧
      (msm_audio_ion_map_buf w b pa pl va s).st.alloc_list.length
        = s.alloc_list.length + 1 ∧
      find_alloc (msm_audio_ion_map_buf w b pa pl va s).st.alloc_list b ≠ none := by
  rw [map_buf_of_get_phys_ok w b pa pl va s hacq, if_pos hfail]
  rw [get_phys_rc] at hacq
  obtain ⟨att, tbl, -, -, -, -, -, hlist, -⟩ := dma_buf_map_ok hacq
  have hfound : find_alloc (msm_audio_ion_get_phys w b pa pl s).st.alloc_list b ≠ none := by
    rw [get_phys_st, hlist, find_alloc_append]
    cases find_alloc s.alloc_list b <;> simp [find_alloc]
  refine ⟨rfl, ?_, ?_⟩
  · simp only
    rw [map_kernel_alloc_list_length, get_phys_st, hlist]
    simp
  · simp only
    rw [map_kernel_alloc_list]
    split
    · exact hfound
    · rw [find_alloc_set_vaddr_same]
      cases hf : find_alloc (msm_audio_ion_get_phys w b pa pl s).st.alloc_list b with
      | none => exact absurd hf hfound
      | some r => simp

/-- C5 (what the code does): when `msm_audio_ion_alloc` or `msm_audio_ion_import` has got its
buffer `p`, the acquire step succeeds (record allocation, attach and scatter-gather mapping
succeed) and the kernel-mapping step fails (`msm_audio_ion_map_kernel`, whose result does
not depend on the driver state, returns `NULL` or an error pointer), the call returns
`-ENOMEM`, and the registry after the call holds one record more than before the call and a
record of `p`: the acquire step is not unwound. -/
theorem alloc_import_failure_keeps_record (w : World) (d : PtrResult Nat)
    (pa pl va bufsz p att : Nat) (tbl : SgTable) (fd : Int) (s : State)
    (hprobed : s.device_status &&& MSM_AUDIO_ION_PROBED ≠ 0) (hb : bufsz ≠ 0) (hp : p ≠ 0)
    (hi : w.ion_alloc bufsz = .ptr p) (hg : w.dma_buf_get fd = .ptr p)
    (hk : w.kzalloc_ok = true) (ha : w.dma_buf_attach p = .ptr att)
    (hm : w.dma_buf_map_attachment att = .ptr tbl)
    (hfail : IS_ERR_OR_NULL (msm_audio_ion_map_kernel w p s).1 = true) :
    ((msm_audio_ion_alloc w ⟨some d, some pa, some pl, some va⟩ bufsz s).rc = -ENOMEM ∧
      (msm_audio_ion_alloc w ⟨some d, some pa, some pl, some va⟩ bufsz s).st.alloc_list.length
        = s.alloc_list.length + 1 ∧
      find_alloc
        (msm_audio_ion_alloc w ⟨some d, some pa, some pl, some va⟩ bufsz s).st.alloc_list p
        ≠ none) ∧
    ((msm_audio_ion_import w ⟨some d, some pa, some pl, some va⟩ fd none bufsz s).rc
        = -ENOMEM ∧
      (msm_audio_ion_import w ⟨some d, some pa, some pl, some va⟩ fd none bufsz
        s).st.alloc_list.length = s.alloc_list.length + 1 ∧
      find_alloc
        (msm_audio_ion_import w ⟨some d, some pa, some pl, some va⟩ fd none bufsz
          s).st.alloc_list p ≠ none) := by
  have hfail1 : ∀ t : State, IS_ERR_OR_NULL (msm_audio_ion_map_kernel w p t).1 = true := by
    intro t
    rw [map_kernel_fst_indep w p t s]
    exact hfail
  have h1 := map_buf_kernel_failure w p pa pl va (s.emit (.ion_alloc bufsz))
    (get_phys_rc_of_ok _ _ _ hk ha hm) (hfail1 _)
  have h2 := map_buf_kernel_failure w p pa pl va (s.emit (.dma_buf_get fd))
    (get_phys_rc_of_ok _ _ _ hk ha hm) (hfail1 _)
  have hne : (-ENOMEM : Int) ≠ 0 := by decide
  constructor
  · simp only [msm_audio_ion_alloc, hprobed, hb, hi, hp, if_false, h1.1, hne, ne_eq,
      not_false_eq_true, if_true, emit_alloc_list, true_and]
    exact h1.2
  · simp only [msm_audio_ion_import, hprobed, hg, hp, if_false, h2.1, hne, ne_eq,
      not_false_eq_true, if_true, emit_alloc_list, true_and, not_true_eq_false]
    exact h2.2

/-- C5 at a concrete failure: the page-map provider fails on page `0`; the allocation
returns `-ENOMEM` and leaves a record of buffer `100` in a registry that was empty. -/
theorem alloc_import_failure_keeps_record_witness :
    (msm_audio_ion_alloc world_nokmap cells0 4096 state0).rc = -ENOMEM ∧
      (msm_audio_ion_alloc world_nokmap cells0 4096 state0).st.alloc_list
        = [⟨4096, 0, 100, 101, table0⟩] ∧
      (msm_audio_ion_alloc world_nokmap cells0 4096 state0).st.trace.getLast?
        = some (.dma_buf_put 100) :=
  ⟨(alloc_import_failure_keeps_record world_nokmap (.ptr 0) 0 0 0 4096 100 101 table0 3 state0
      (by decide) (by decide) (by decide) rfl rfl rfl rfl rfl (by decide)).1.1,
    by decide, by decide⟩

/-! ## Cache maintenance -/

/-- C6 (what the code does): for a cacheable buffer whose flags are read successfully and an
operation that is neither `MSM_AUDIO_ION_INV_CACHES` nor `MSM_AUDIO_ION_CLEAN_CACHES`,
`msm_audio_ion_cache_operations` returns `0`, having made no call besides
`dma_buf_get_flags`. -/
theorem cache_operations_unknown_op (w : World) (abuff : audio_buffer) (cache_op : Int)
    (s : State)
    (hflags : (w.dma_buf_get_flags abuff.dma_buf 0).1 = 0)
    (hcached : (w.dma_buf_get_flags abuff.dma_buf 0).2 &&& w.ION_FLAG_CACHED ≠ 0)
    (hinv : cache_op ≠ w.MSM_AUDIO_ION_INV_CACHES)
    (hclean : cache_op ≠ w.MSM_AUDIO_ION_CLEAN_CACHES) :
    msm_audio_ion_cache_operations w (some abuff) cache_op s
      = (0, s.emit (.dma_buf_get_flags abuff.dma_buf)) := by
  simp [msm_audio_ion_cache_operations, hflags, hcached, hinv, hclean]

/-- C6 at operation value `7` on the cacheable buffer `100`. -/
theorem cache_operations_unknown_op_witness :
    (msm_audio_ion_cache_operations world0 (some ⟨100⟩) 7 state_live).1 = 0 :=
  congrArg Prod.fst
    (cache_operations_unknown_op world0 ⟨100⟩ 7 state_live rfl (by decide) (by decide)
      (by decide))

/-! ## The `vaddr` output of `msm_audio_ion_alloc` -/

/-- C7 (what the code does): a successful `msm_audio_ion_alloc` of a buffer `b` that had no
record leaves the `vaddr` cell of the caller as it was before the call, while the record of
`b` holds the valid kernel address that the kernel-mapping step established; the `memset`
that ends the call is applied to the old contents `va` of the cell. -/
theorem alloc_leaves_vaddr_cell (w : World) (c : Cells) (bufsz b va : Nat) (s : State)
    (hok : (msm_audio_ion_alloc w c bufsz s).rc = 0)
    (hi : w.ion_alloc bufsz = .ptr b) (hva : c.vaddr = some va)
    (hfresh : find_alloc s.alloc_list b = none) :
    (msm_audio_ion_alloc w c bufsz s).cells.vaddr = some va ∧
      (msm_audio_ion_alloc w c bufsz s).st.trace.getLast? = some (.memset va bufsz) ∧
      ∃ r, find_alloc (msm_audio_ion_alloc w c bufsz s).st.alloc_list b = some r ∧
        r.vaddr = (msm_audio_ion_map_kernel w b s).1 ∧ IS_ERR_OR_NULL r.vaddr = false := by
  obtain ⟨d, pa, va2, pl, p, -, -, hva2, -, -, hi2, hp0, hr, heq⟩ := alloc_ok hok
  have hpb : p = b := by
    rw [hi] at hi2
    cases hi2
    rfl
  subst hpb
  have hvv : va2 = va := by
    rw [hva] at hva2
    cases hva2
    rfl
  subst hvv
  obtain ⟨att, tbl, k, -, -, hk, hvalid, -, hlist⟩ := map_buf_ok_alloc_list hr
  have hfresh2 : find_alloc (s.emit (.ion_alloc bufsz)).alloc_list p = none := hfresh
  rw [set_vaddr_append_of_find_none hfresh2 _ rfl] at hlist
  rw [heq]
  refine ⟨rfl, by simp, ⟨w.dma_buf_size p, k, p, att, tbl⟩, ?_, ?_, hvalid⟩
  · simp only [emit_alloc_list]
    rw [hlist, find_alloc_append, hfresh2]
    simp [find_alloc]
  · simp only
    rw [hk]
    exact map_kernel_fst_indep _ _ _ _

/-- C7 at the documented scenario: the caller passes a `vaddr` cell that holds `NULL`; after
the successful allocation the cell still holds `NULL`, and the record holds `0x1000`. -/
theorem alloc_leaves_vaddr_cell_witness :
    (msm_audio_ion_alloc world0 cells0 4096 state0).rc = 0 ∧
      (msm_audio_ion_alloc world0 cells0 4096 state0).cells.vaddr = some 0 ∧
      (find_alloc (msm_audio_ion_alloc world0 cells0 4096 state0).st.alloc_list 100).map
        (fun r => r.vaddr) = some 0x1000 :=
  ⟨by decide,
    (alloc_leaves_vaddr_cell world0 cells0 4096 100 0 state0 (by decide) rfl rfl rfl).1,
    by decide⟩

/-! ## Failure of a page map in `msm_audio_ion_map_kernel` -/

theorem kmap_remaining_fails_at (w : World) (b k : Nat) (hfail : w.dma_buf_kmap b k = 0) :
    ∀ (n i : Nat) (s : State), i ≤ k → k < i + n →
      (∀ j, i ≤ j → j < k → w.dma_buf_kmap b j ≠ 0) →
      kmap_remaining w b n i s =
        (some k,
          { s with
            trace := s.trace ++ (List.range' i (k + 1 - i)).map (fun j => .dma_buf_kmap b j) }) := by
  intro n
  induction n with
  | zero => intro i s h1 h2; omega
  | succ n ih =>
    intro i s h1 h2 hm
    unfold kmap_remaining
    simp only
    by_cases hik : i = k
    · subst hik
      simp [hfail, State.emit]
    · have hlt : i < k := by omega
      have hs : k + 1 - i = (k + 1 - (i + 1)) + 1 := by omega
      rw [if_neg (hm i (Nat.le_refl _) hlt),
        ih (i + 1) _ (by omega) (by omega) (fun j hj1 hj2 => hm j (by omega) hj2), hs,
        List.range'_succ]
      simp [State.emit]

theorem kunmap_down_eq (b a : Nat) :
    ∀ (i : Nat) (s : State),
      kunmap_down b a i s =
        { s with
          trace := s.trace ++ (List.range i).reverse.map (fun j => .dma_buf_kunmap b j a) } := by
  intro i
  induction i with
  | zero => intro s; simp [kunmap_down]
  | succ i ih =>
    intro s
    unfold kunmap_down
    rw [ih, List.range_succ]
    simp [State.emit]

/-- C9: for a buffer of `page_count w b` pages (a count within the range of the `int` loop
counter) and an index `k` with `1 ≤ k < page_count w b`, when the CPU-access scope is
entered, pages `0 .. k - 1` map and page `k` fails to map, `msm_audio_ion_map_kernel`
returns `NULL`; the calls it makes are, in order, the page maps `0 .. k` and then the
unmaps of exactly the pages `k - 1, ..., 0`; and nothing else of the state changes, so no
record is written. -/
theorem map_kernel_unwinds (w : World) (s : State) (b k : Nat)
    (hbegin : w.dma_buf_begin_cpu_access b = 0)
    (hk1 : 1 ≤ k) (hkN : k < page_count w b) (hint : page_count w b ≤ INT_MAX)
    (hmapped : ∀ j, j < k → w.dma_buf_kmap b j ≠ 0)
    (hfail : w.dma_buf_kmap b k = 0) :
    msm_audio_ion_map_kernel w b s =
      (0,
        { s with
          trace := s.trace ++ [.dma_buf_begin_cpu_access b]
            ++ (List.range (k + 1)).map (fun j => .dma_buf_kmap b j)
            ++ (List.range k).reverse.map
                (fun j => .dma_buf_kunmap b j (w.dma_buf_kmap b 0)) }) := by
  have h0 : w.dma_buf_kmap b 0 ≠ 0 := hmapped 0 (by omega)
  have hpc : page_count w b ≠ 0 := by omega
  unfold msm_audio_ion_map_kernel
  simp only [hbegin, ne_eq, not_true_eq_false, if_false, hpc, h0]
  rw [kmap_remaining_fails_at w b k hfail (page_count w b - 1) 1 _ hk1 (by omega)
    (fun j _ hj => hmapped j hj)]
  simp only [kunmap_down_eq]
  have hr : List.range (k + 1) = 0 :: List.range' 1 k := by
    rw [List.range_eq_range', List.range'_succ]
  simp [State.emit, hr]

/-- C9 at the documented scenario: five pages, page `2` fails to map; pages `1` and `0` are
unmapped and the record of the buffer keeps an absent kernel address. -/
theorem map_kernel_unwinds_witness :
    msm_audio_ion_map_kernel world_fail2 100 state_acquired =
      (0,
        { state_acquired with
          trace := state_acquired.trace ++
            [.dma_buf_begin_cpu_access 100, .dma_buf_kmap 100 0, .dma_buf_kmap 100 1,
              .dma_buf_kmap 100 2, .dma_buf_kunmap 100 1 0x1000,
              .dma_buf_kunmap 100 0 0x1000] }) ∧
      (find_alloc (msm_audio_ion_map_kernel world_fail2 100 state_acquired).2.alloc_list
        100).map (fun r => r.vaddr) = some 0 :=
  ⟨(map_kernel_unwinds world_fail2 state_acquired 100 2 rfl (by decide) (by decide)
      (by decide) (by decide) rfl).trans (by decide),
    by decide⟩

/-! ## Projection of a region smaller than the first segment -/

/-- C10 as stated fails: the live six-page buffer `100` has page backing and a first
segment of `12288` bytes; the region `vma_two` is `8192` bytes long, at page offset `2`;
`msm_audio_ion_mmap` returns `0` after two page-range remaps of `4096` bytes each, one from
each segment. -/
theorem mmap_small_region_counterexample :
    (find_alloc state_two.alloc_list 100).map (fun r => r.table.sgl) = some ⟨7, 12288, 0x80000000⟩ ∧
      vma_two.vm_end - vma_two.vm_start = 8192 ∧
      msm_audio_ion_mmap world_two ⟨100⟩ vma_two state_two =
        (0, vma_two,
          (state_two.emit (.remap_pfn_range 0x70000000 9 4096 0)).emit
            (.remap_pfn_range 0x70001000 50 4096 0)) := by
  decide

/-- C10, amended: for a live buffer with page backing, and a target region that is shorter
than the first scatter-gather segment and whose byte offset `vm_pgoff * PAGE_SIZE` lies
inside that segment with offset plus region length within the segment,
`msm_audio_ion_mmap` issues exactly one page-range remap, at the start of the region, of
the page at that offset and of the length of the region, and returns `0`. -/
theorem mmap_single_remap (w : World) (abuff : audio_buffer) (vma : vm_area_struct)
    (s : State) (r : msm_audio_alloc_data)
    (hr : find_alloc s.alloc_list abuff.dma_buf = some r)
    (hpage : r.table.sgl.page ≠ 0)
    (hse : vma.vm_start ≤ vma.vm_end) (hend : vma.vm_end < ULONG_MOD)
    (hlen : vma.vm_end - vma.vm_start < r.table.sgl.length)
    (hoff : (vma.vm_pgoff * w.PAGE_SIZE) % ULONG_MOD < r.table.sgl.length)
    (hfit : (vma.vm_pgoff * w.PAGE_SIZE) % ULONG_MOD + (vma.vm_end - vma.vm_start)
      ≤ r.table.sgl.length) :
    msm_audio_ion_mmap w abuff vma s =
      (0, { vma with vm_page_prot := w.pgprot_writecombine vma.vm_page_prot },
        s.emit (.remap_pfn_range vma.vm_start
          (w.page_to_pfn (r.table.sgl.page + (vma.vm_pgoff * w.PAGE_SIZE) % ULONG_MOD / w.PAGE_SIZE))
          (vma.vm_end - vma.vm_start) (w.pgprot_writecombine vma.vm_page_prot))) := by
  have hrem : (vma.vm_end + ULONG_MOD - vma.vm_start) % ULONG_MOD
      = vma.vm_end - vma.vm_start := by
    have h1 : vma.vm_end + ULONG_MOD - vma.vm_start
        = (vma.vm_end - vma.vm_start) + ULONG_MOD := by omega
    rw [h1, Nat.add_mod_right]
    exact Nat.mod_eq_of_lt (by omega)
  have haddr : (vma.vm_start + (vma.vm_end - vma.vm_start)) % ULONG_MOD = vma.vm_end := by
    have h1 : vma.vm_start + (vma.vm_end - vma.vm_start) = vma.vm_end := by omega
    rw [h1]
    exact Nat.mod_eq_of_lt hend
  generalize hoffdef : (vma.vm_pgoff * w.PAGE_SIZE) % ULONG_MOD = offset at hoff hfit ⊢
  unfold msm_audio_ion_mmap
  simp only [hr, hoffdef, hpage, ne_eq, not_false_eq_true, if_true, SgTable.entries]
  unfold mmap_sg_loop
  simp only [ge_iff_le, Nat.not_le.mpr hoff, if_false, hrem]
  by_cases h0 : offset = 0
  · subst h0
    have hmin : min r.table.sgl.length (vma.vm_end - vma.vm_start)
        = vma.vm_end - vma.vm_start := Nat.min_eq_right (by omega)
    simp [hmin, haddr]
  · have hmin : min (r.table.sgl.length - offset) (vma.vm_end - vma.vm_start)
        = vma.vm_end - vma.vm_start := Nat.min_eq_right (by omega)
    simp [h0, hmin, haddr]

/-- C10, amended, on the six-page buffer: a region of two pages at page offset `0` is
projected by one remap of `8192` bytes. -/
theorem mmap_single_remap_witness :
    msm_audio_ion_mmap world_two ⟨100⟩ vma_zero state_two =
      (0, vma_zero, state_two.emit (.remap_pfn_range 0x70000000 7 8192 0)) :=
  (mmap_single_remap world_two ⟨100⟩ vma_zero state_two ⟨24576, 0x1000, 100, 101, table_two⟩
    (by decide) (by decide) (by decide) (by decide) (by decide) (by decide)
    (by decide)).trans (by decide)

/-! ## One record per buffer identity -/

theorem keys_set_vaddr (l : List msm_audio_alloc_data) (b a : Nat) :
    registry_keys (set_vaddr l b a) = registry_keys l := by
  induction l with
  | nil => rfl
  | cons x xs ih =>
    unfold set_vaddr
    split
    · rfl
    · simp only [registry_keys, List.map_cons] at ih ⊢
      rw [ih]

theorem del_alloc_sublist (l : List msm_audio_alloc_data) (b : Nat) :
    List.Sublist (del_alloc l b) l := by
  induction l with
  | nil => exact List.Sublist.refl _
  | cons x xs ih =>
    unfold del_alloc
    split
    · exact List.sublist_cons_self _ _
    · exact List.Sublist.cons₂ _ ih

theorem keys_map_kernel (w : World) (b : Nat) (s : State) :
    registry_keys (msm_audio_ion_map_kernel w b s).2.alloc_list = registry_keys s.alloc_list := by
  rw [map_kernel_alloc_list]
  split
  · rfl
  · exact keys_set_vaddr _ _ _

theorem keys_dma_buf_map (w : World) (b a l : Nat) (s : State) :
    registry_keys (msm_audio_dma_buf_map w b a l s).st.alloc_list = registry_keys s.alloc_list ∨
      registry_keys (msm_audio_dma_buf_map w b a l s).st.alloc_list
        = registry_keys s.alloc_list ++ [b] := by
  unfold msm_audio_dma_buf_map
  split
  · exact Or.inl rfl
  · simp only
    split
    · exact Or.inl rfl
    · split
      · exact Or.inl rfl
      · exact Or.inr (by simp [registry_keys, msm_audio_ion_add_allocation])

/-- The identities in the registry after `msm_audio_ion_map_buf` of a buffer `b`: those
before the call, with `b` appended when the acquire step succeeded. -/
theorem keys_map_buf (w : World) (b pa pl va : Nat) (s : State) :
    registry_keys (msm_audio_ion_map_buf w b pa pl va s).st.alloc_list
        = registry_keys s.alloc_list ∨
      registry_keys (msm_audio_ion_map_buf w b pa pl va s).st.alloc_list
        = registry_keys s.alloc_list ++ [b] := by
  have hg := keys_dma_buf_map w b pa pl s
  rw [← get_phys_st] at hg
  by_cases hrc : (msm_audio_ion_get_phys w b pa pl s).rc = 0
  · rw [map_buf_of_get_phys_ok w b pa pl va s hrc]
    split <;> (simp only; rw [keys_map_kernel]; exact hg)
  · rw [map_buf_of_get_phys_err w b pa pl va s hrc]
    exact hg

theorem keys_alloc (w : World) (c : Cells) (bufsz : Nat) (s : State) :
    registry_keys (msm_audio_ion_alloc w c bufsz s).st.alloc_list = registry_keys s.alloc_list ∨
      ∃ p, w.ion_alloc bufsz = .ptr p ∧
        registry_keys (msm_audio_ion_alloc w c bufsz s).st.alloc_list
          = registry_keys s.alloc_list ++ [p] := by
  unfold msm_audio_ion_alloc
  split
  · exact Or.inl rfl
  · split
    · rename_i d paddr vaddr plen h1 h2 h3 h4
      split
      · exact Or.inl rfl
      · simp only
        split
        · exact Or.inl rfl
        · rename_i p hi
          split
          · exact Or.inl rfl
          · have h := keys_map_buf w p paddr plen vaddr (s.emit (.ion_alloc bufsz))
            split
            · rcases h with h | h
              · exact Or.inl h
              · exact Or.inr ⟨p, hi, h⟩
            · rcases h with h | h
              · exact Or.inl h
              · exact Or.inr ⟨p, hi, h⟩
    · exact Or.inl rfl

theorem keys_import (w : World) (c : Cells) (fd : Int) (ionflag : Option Nat) (bufsz : Nat)
    (s : State) :
    registry_keys (msm_audio_ion_import w c fd ionflag bufsz s).st.alloc_list
        = registry_keys s.alloc_list ∨
      ∃ p, w.dma_buf_get fd = .ptr p ∧
        registry_keys (msm_audio_ion_import w c fd ionflag bufsz s).st.alloc_list
          = registry_keys s.alloc_list ++ [p] := by
  unfold msm_audio_ion_import
  split
  · exact Or.inl rfl
  · split
    · rename_i d paddr vaddr plen h1 h2 h3 h4
      simp only
      split
      · exact Or.inl rfl
      · rename_i p hg
        split
        · exact Or.inl rfl
        · cases ionflag with
          | none =>
            simp only
            split
            · exact Or.inl rfl
            · have h := keys_map_buf w p paddr plen vaddr (s.emit (.dma_buf_get fd))
              split
              · rcases h with h | h
                · exact Or.inl h
                · exact Or.inr ⟨p, hg, h⟩
              · rcases h with h | h
                · exact Or.inl h
                · exact Or.inr ⟨p, hg, h⟩
          | some old =>
            simp only
            split
            · exact Or.inl rfl
            · have h := keys_map_buf w p paddr plen vaddr
                ((s.emit (.dma_buf_get fd)).emit (.dma_buf_get_flags p))
              split
              · rcases h with h | h
                · exact Or.inl h
                · exact Or.inr ⟨p, hg, h⟩
              · rcases h with h | h
                · exact Or.inl h
                · exact Or.inr ⟨p, hg, h⟩
    · exact Or.inl rfl

theorem nodup_keys_append {l : List msm_audio_alloc_data} {p : Nat}
    (h : (registry_keys l).Nodup) (hfresh : find_alloc l p = none) :
    (registry_keys l ++ [p]).Nodup := by
  have hnot : p ∉ registry_keys l := by
    intro hmem
    obtain ⟨r, hr, hrp⟩ := List.mem_map.mp hmem
    exact (find_alloc_none.mp hfresh) r hr hrp
  rw [List.nodup_append]
  refine ⟨h, List.nodup_singleton _, ?_⟩
  intro a ha hb
  rw [List.mem_singleton] at hb
  subst hb
  exact hnot ha

theorem nodup_keys_free (w : World) (b : Nat) (s : State)
    (h : (registry_keys s.alloc_list).Nodup) :
    (registry_keys (msm_audio_ion_free w b s).2.alloc_list).Nodup := by
  by_cases hb : b = 0
  · simpa [msm_audio_ion_free, hb] using h
  · rw [free_alloc_list _ _ _ hb]
    exact List.Nodup.sublist ((del_alloc_sublist _ _).map _) h

/-- C11 as stated fails: from the empty registry of `state0`, importing descriptor `3`
twice succeeds twice, both times for buffer `100`, and the registry then holds two records
of buffer `100`. -/
theorem registry_duplicate_counterexample :
    state0.alloc_list = [] ∧
      (msm_audio_ion_import world0 cells0 3 none 0 state0).rc = 0 ∧
      (msm_audio_ion_import world0 cells0 3 none 0
        (msm_audio_ion_import world0 cells0 3 none 0 state0).st).rc = 0 ∧
      registry_keys
        (msm_audio_ion_import world0 cells0 3 none 0
          (msm_audio_ion_import world0 cells0 3 none 0 state0).st).st.alloc_list
        = [100, 100] ∧
      ¬ (registry_keys state_twice.alloc_list).Nodup := by
  decide

/-- C11, amended: in every registry state that `msm_audio_ion_alloc`, `msm_audio_ion_import`
and `msm_audio_ion_free` produce from an empty registry, when every allocation and
every import obtains a buffer that has no record at the time of the call, no two records
carry the same `dma_buf`. -/
theorem fresh_registry_nodup (s : State) (h : ReachableFresh s) :
    (registry_keys s.alloc_list).Nodup := by
  induction h with
  | init s h0 => rw [h0]; exact List.nodup_nil
  | of_alloc w c bufsz s hfresh _ ih =>
    rcases keys_alloc w c bufsz s with hk | ⟨p, hp, hk⟩
    · rw [hk]; exact ih
    · rw [hk]; exact nodup_keys_append ih (hfresh p hp)
  | of_import w c fd ionflag bufsz s hfresh _ ih =>
    rcases keys_import w c fd ionflag bufsz s with hk | ⟨p, hp, hk⟩
    · rw [hk]; exact ih
    · rw [hk]; exact nodup_keys_append ih (hfresh p hp)
  | of_free w b s _ ih => exact nodup_keys_free w b s ih

/-- C11, amended, on a registry of two buffers: buffer `100` imported into the empty
registry, then buffer `200` allocated. -/
theorem fresh_registry_nodup_witness :
    registry_keys (msm_audio_ion_alloc world_other cells0 4096 state_live).st.alloc_list
        = [100, 200] ∧
      (registry_keys
        (msm_audio_ion_alloc world_other cells0 4096 state_live).st.alloc_list).Nodup :=
  ⟨by decide,
    fresh_registry_nodup _
      (ReachableFresh.of_alloc world_other cells0 4096 state_live
        (fun p hp => by cases hp; decide)
        (ReachableFresh.of_import world0 cells0 3 none 0 state0 (fun _ _ => rfl)
          (ReachableFresh.init state0 rfl)))⟩

end MsmAudioIon
